import Mathlib

/-
Verification of the audio-snapshot visualization core of the
AI-Personal-EQ-Creator repository (FrequencyVisualizer component:
processAudio and drawChart).

Numbers: the source runs on JS doubles; we embed them as rationals.
The only transcendental in the source is Math.log10, which occurs only
inside the comparison |log10 a - log10 b| < 0.1; for positive rational
inputs that comparison is equivalent to the rational comparison
a^10 < 10 * b^10 and b^10 < 10 * a^10, which we use as the executable
definition and connect to Real.logb by the lemma withinTol_iff_logb
below.  For nonpositive inputs JS Math.log10 yields NaN or -Infinity,
making the comparison false, which the definition also reproduces.
-/

namespace EQViz

/-! ## Data model (src/types.ts and spec section 3) -/

/-- EQSetting from src/types.ts: one frequency/gain adjustment point. -/
structure EQSetting where
  frequency : ℚ
  gain : ℚ
deriving DecidableEq, Repr

/-- Decoded PCM audio, as consumed by processAudio (sample rate and duration). -/
structure AudioBuffer where
  sampleRate : ℚ
  duration : ℚ
deriving DecidableEq, Repr

/-- FrequencySnapshot: the Capturer output as fed to drawChart, abstracting
the (dataArray, sampleRate, message) argument triple of drawChart. -/
structure FrequencySnapshot where
  magnitudes : List ℕ
  sampleRate : ℚ
  diagnosticMessage : Option String
deriving DecidableEq, Repr

/-- Bin datum derived inside drawChart: center frequency and byte amplitude. -/
structure BinDatum where
  frequency : ℚ
  amplitude : ℕ
deriving DecidableEq, Repr

/-! ## Capturer (processAudio, part_000 lines 22-62)

processAudio is effectful browser code; its data content is a function of
the decode outcome and of the byte-frequency data the analyser returns at
the 100 ms snapshot.  captureResult is that function: it yields the
snapshot that processAudio passes to drawChart. -/

/-- Diagnostic used on the decode-failure path (line 30). -/
def errorDecodingMsg : String := "Error decoding audio file."

/-- Diagnostic used on the all-zero analyser path (line 58). -/
def silentMsg : String := "Could not visualize audio: sample may be silent."

/-- Snapshot produced by processAudio, as a function of the decode outcome
(none = decodeAudioData rejected) and the analyser byte data read at the
100 ms snapshot (lines 26-33 and 53-59). -/
def captureResult (decoded : Option AudioBuffer) (dataArray : List ℕ) :
    FrequencySnapshot :=
  match decoded with
  | none => ⟨[], 0, some errorDecodingMsg⟩
  | some buffer =>
      if dataArray.any (fun d => decide (0 < d)) then
        ⟨dataArray, buffer.sampleRate, none⟩
      else
        ⟨[], 0, some silentMsg⟩

/-! ## Renderer (drawChart, part_000 lines 64-143) -/

/-- Boost fill color (line 139). -/
def boostColor : String := "#22c55e"

/-- Cut fill color (line 139). -/
def cutColor : String := "#ef4444"

/-- Neutral fill color (line 141). -/
def neutralColor : String := "#00BFFF"

/-- The tolerance test of line 137,
Math.abs(Math.log10(a) - Math.log10(b)) < 0.1, as an executable rational
predicate.  For 0 < a and 0 < b it is equivalent to the source comparison
over the reals (lemma withinTol_iff_logb); for nonpositive arguments JS
log10 produces NaN or -Infinity and the comparison is false, as here. -/
def withinTol (a b : ℚ) : Bool :=
  decide (0 < a) && decide (0 < b) &&
    decide (a ^ 10 < 10 * b ^ 10) && decide (b ^ 10 < 10 * a ^ 10)

/-- Bar fill rule of lines 136-142: the first adjustment point within the
log10 tolerance of the bin frequency decides boost/cut by the sign of its
gain; no match gives the neutral color. -/
def barFill (eqSettings : List EQSetting) (f : ℚ) : String :=
  match eqSettings.find? (fun eq => withinTol eq.frequency f) with
  | some closestEq => if closestEq.gain > 0 then boostColor else cutColor
  | none => neutralColor

/-- Bin data of lines 120-123: index i maps to center frequency
i * sampleRate / (2 * length), keeping frequencies in [20, 20000]. -/
def binData (dataArray : List ℕ) (sampleRate : ℚ) : List BinDatum :=
  (dataArray.enum.map (fun p =>
      ⟨(p.1 * sampleRate) / (2 * dataArray.length), p.2⟩)).filter
    (fun d => decide (20 ≤ d.frequency) && decide (d.frequency ≤ 20000))

/-- Margins of line 73. -/
def marginTop : ℚ := 20
def marginRight : ℚ := 20
def marginBottom : ℚ := 40
def marginLeft : ℚ := 50

/-- The linear y scale of line 82: domain [0,255] to range [height,0]. -/
def linY (height : ℚ) (d : ℕ) : ℚ := height - height * d / 255

/-- One rendered bar (lines 127-142).  The x position is the external d3
log scale applied to the bar frequency; the frequency (its sole input) is
carried in the bar, the library mapping itself stays external. -/
structure Bar where
  frequency : ℚ
  amplitude : ℕ
  width : ℚ
  y : ℚ
  heightPx : ℚ
  fill : String
deriving DecidableEq, Repr

/-- Observable output of drawChart: nothing (degenerate geometry, line 77),
a placeholder message with axes (lines 110-118), or axes plus bars. -/
inductive LayoutOutput where
  | empty : LayoutOutput
  | placeholder : String → LayoutOutput
  | chart : List Bar → LayoutOutput
deriving DecidableEq, Repr

/-- The bars of a layout (empty for the two no-bar outputs). -/
def LayoutOutput.bars : LayoutOutput → List Bar
  | .chart bs => bs
  | _ => []

/-- drawChart, lines 64-143, as a function of the snapshot triple, the
adjustment points, and the measured container size.  Note on line 125:
in JS, width / 0 is Infinity when width > 0; that value feeds only the
per-bar width attribute and no bar exists when the bin list is empty,
so the rational convention width / 0 = 0 is observably equivalent. -/
def drawChart (eqSettings : List EQSetting) (dataArray : List ℕ)
    (sampleRate : ℚ) (message : Option String)
    (containerWidth containerHeight : ℚ) : LayoutOutput :=
  let width := containerWidth - marginLeft - marginRight
  let height := containerHeight - marginTop - marginBottom
  if width ≤ 0 ∨ height ≤ 0 then .empty
  else if dataArray.length = 0 ∨ sampleRate = 0 then
    .placeholder (message.getD "No audio data to display.")
  else
    let data := binData dataArray sampleRate
    let barWidth := width / data.length
    .chart (data.map (fun d =>
      { frequency := d.frequency
        amplitude := d.amplitude
        width := if barWidth > 0 then barWidth else 1
        y := linY height d.amplitude
        heightPx := height - linY height d.amplitude
        fill := barFill eqSettings d.frequency }))

/-! ## Lifecycle state machine (part_000 lines 22-62 and 145-152)

The audio-context lifecycle is event-driven: the decode promise settles,
the 100 ms timer fires, and the effect cleanup (disposal) may run.  We
model the state of one capture invocation after the context is
constructed (line 23) and the handlers as steps on it.  The field ctx
mirrors the audioContext variable: none would be a null/cleared variable
(never assigned by this code after construction), some b a live context
with b recording whether it is closed.  closeCalls counts invocations of
audioContext.close, snapshotReads the calls to getByteFrequencyData,
stopCalls the calls to source.stop, and draws the drawChart calls. -/

structure CaptureState where
  ctx : Option Bool
  closeCalls : ℕ
  snapshotReads : ℕ
  stopCalls : ℕ
  draws : List FrequencySnapshot
deriving DecidableEq, Repr

/-- State right after line 23: context constructed and open, nothing done. -/
def initState : CaptureState := ⟨some false, 0, 0, 0, []⟩

inductive CaptureEvent where
  | decodeFail : CaptureEvent
  | decodeOk : CaptureEvent
  | timerFire : CaptureEvent
  | dispose : CaptureEvent
deriving DecidableEq, Repr

/-- Handler semantics.  decodeFail is the catch block (lines 28-33): draw
the error snapshot, then close whenever the variable is non-null — with no
check that the context is still open.  decodeOk (lines 35-44) builds the
graph and schedules the timer, touching none of the tracked state.
timerFire (lines 46-61) returns at once when the variable is null or the
context closed, else reads the snapshot, stops the source, draws, and
closes.  dispose (lines 147-151) closes only a non-null, non-closed
context.  buffer and dataArray are the decoded buffer and the analyser
bytes the timer would read. -/
def step (buffer : AudioBuffer) (dataArray : List ℕ)
    (s : CaptureState) : CaptureEvent → CaptureState
  | .decodeFail =>
      let s' := { s with draws := s.draws ++ [captureResult none dataArray] }
      match s'.ctx with
      | none => s'
      | some _ => { s' with ctx := some true, closeCalls := s'.closeCalls + 1 }
  | .decodeOk => s
  | .timerFire =>
      match s.ctx with
      | none => s
      | some true => s
      | some false =>
          { s with
            ctx := some true
            closeCalls := s.closeCalls + 1
            snapshotReads := s.snapshotReads + 1
            stopCalls := s.stopCalls + 1
            draws := s.draws ++ [captureResult (some buffer) dataArray] }
  | .dispose =>
      match s.ctx with
      | none => s
      | some true => s
      | some false => { s with ctx := some true, closeCalls := s.closeCalls + 1 }

inductive DecodeOutcome where
  | ok : DecodeOutcome
  | fail : DecodeOutcome
deriving DecidableEq, Repr

/-- One complete run of a capture invocation: the decode outcome, and when
(if ever) the caller disposes — 0: while the decode is pending, 1: after
the decode settles but before the timer, 2: at the end.  The timer fires
exactly when decodeOk scheduled it (the JS runtime guarantee), and on the
failure outcome no timer was scheduled, so positions 1 and 2 coincide. -/
structure Run where
  outcome : DecodeOutcome
  disposeAt : Option (Fin 3)
deriving DecidableEq, Repr

/-- Event sequence of a run, in execution order. -/
def Run.events (r : Run) : List CaptureEvent :=
  (if r.disposeAt = some 0 then [.dispose] else [])
    ++ [match r.outcome with | .ok => .decodeOk | .fail => .decodeFail]
    ++ (if r.disposeAt = some 1 then [.dispose] else [])
    ++ (match r.outcome with | .ok => [.timerFire] | .fail => [])
    ++ (if r.disposeAt = some 2 then [.dispose] else [])

/-- Final state of a run, from the post-construction initial state. -/
def finalState (buffer : AudioBuffer) (dataArray : List ℕ) (r : Run) :
    CaptureState :=
  r.events.foldl (step buffer dataArray) initState

/-! ## Supporting lemmas -/

/-- One-sided form of the line 137 comparison over the reals: for positive
arguments, logb 10 x - logb 10 y < 0.1 is the rational-power comparison. -/
lemma logb_sub_lt_iff (x y : ℝ) (hx : 0 < x) (hy : 0 < y) :
    Real.logb 10 x - Real.logb 10 y < 0.1 ↔ x ^ 10 < 10 * y ^ 10 := by
  rw [← Real.logb_div (ne_of_gt hx) (ne_of_gt hy),
    Real.logb_lt_iff_lt_rpow (by norm_num) (div_pos hx hy)]
  have hpow : ((10:ℝ) ^ (0.1:ℝ)) ^ (10:ℕ) = 10 := by
    rw [← Real.rpow_natCast ((10:ℝ) ^ (0.1:ℝ)) 10,
      ← Real.rpow_mul (by norm_num : (0:ℝ) ≤ 10)]
    norm_num
  have key : (x / y) ^ (10:ℕ) < ((10:ℝ) ^ (0.1:ℝ)) ^ (10:ℕ) ↔
      x / y < (10:ℝ) ^ (0.1:ℝ) :=
    pow_lt_pow_iff_left₀ (div_pos hx hy).le
      (Real.rpow_nonneg (by norm_num) _) (by norm_num)
  rw [← key, hpow, div_pow, div_lt_iff₀ (pow_pos hy 10)]

/-- The executable tolerance test agrees with the source comparison
Math.abs(Math.log10 a - Math.log10 b) < 0.1 for positive inputs. -/
lemma withinTol_iff_logb (a b : ℚ) (ha : 0 < a) (hb : 0 < b) :
    withinTol a b = true ↔
      |Real.logb 10 (a : ℝ) - Real.logb 10 (b : ℝ)| < 0.1 := by
  have ha' : (0:ℝ) < (a:ℝ) := by exact_mod_cast ha
  have hb' : (0:ℝ) < (b:ℝ) := by exact_mod_cast hb
  rw [abs_sub_lt_iff, logb_sub_lt_iff _ _ ha' hb', logb_sub_lt_iff _ _ hb' ha']
  simp only [withinTol, Bool.and_eq_true, decide_eq_true_eq]
  constructor
  · rintro ⟨⟨⟨-, -⟩, h3⟩, h4⟩
    exact ⟨by exact_mod_cast h3, by exact_mod_cast h4⟩
  · rintro ⟨h3, h4⟩
    exact ⟨⟨⟨ha, hb⟩, by exact_mod_cast h3⟩, by exact_mod_cast h4⟩

/-- find? on a decomposed list whose head segment all fails the test. -/
lemma find?_append_cons {α : Type} (p : α → Bool) (l₁ : List α) (a : α)
    (l₂ : List α) (h₁ : ∀ x ∈ l₁, p x = false) (ha : p a = true) :
    List.find? p (l₁ ++ a :: l₂) = some a := by
  induction l₁ with
  | nil => simp [List.find?_cons, ha]
  | cons x xs ih =>
      have hx := h₁ x (by simp)
      simp only [List.cons_append, List.find?_cons, hx]
      exact ih (fun y hy => h₁ y (by simp [hy]))

/-- Membership characterization of the bin list of lines 120-123. -/
lemma mem_binData_iff (dataArray : List ℕ) (sampleRate : ℚ) (b : BinDatum) :
    b ∈ binData dataArray sampleRate ↔
      (∃ i : Fin dataArray.length,
        b = ⟨(i.1 : ℚ) * sampleRate / (2 * dataArray.length), dataArray.get i⟩)
      ∧ 20 ≤ b.frequency ∧ b.frequency ≤ 20000 := by
  simp only [binData, List.mem_filter, List.mem_map, Bool.and_eq_true,
    decide_eq_true_eq]
  constructor
  · rintro ⟨⟨⟨i, d⟩, hmem, rfl⟩, h20, h2k⟩
    rw [List.mem_enum_iff_getElem?] at hmem
    obtain ⟨hi, hd⟩ := List.getElem?_eq_some.mp hmem
    exact ⟨⟨⟨i, hi⟩, by simp [List.get_eq_getElem, hd]⟩, h20, h2k⟩
  · rintro ⟨⟨i, rfl⟩, h20, h2k⟩
    refine ⟨⟨(i.1, dataArray.get i), ?_, rfl⟩, h20, h2k⟩
    rw [List.mem_enum_iff_getElem?]
    exact List.getElem?_eq_some.mpr ⟨i.2, by simp [List.get_eq_getElem]⟩

/-! ## Claims -/

/-- C3: on any input whose audio decoding fails, the capture yields the
snapshot with empty magnitudes, sampleRate 0, and exactly the diagnostic
Error decoding audio file., and (being a total function of the decode
outcome) propagates no error to the caller. -/
theorem decode_failure_snapshot (dataArray : List ℕ) :
    captureResult none dataArray =
      ⟨[], 0, some "Error decoding audio file."⟩ := rfl

/-- C4: a capture whose analyser data is all zero yields the silence
placeholder snapshot, and one with any non-zero magnitude carries the
captured magnitudes and the decoded sample rate with no diagnostic. -/
theorem silence_and_success_snapshot (buffer : AudioBuffer)
    (dataArray : List ℕ) :
    ((∀ d ∈ dataArray, d = 0) →
      captureResult (some buffer) dataArray =
        ⟨[], 0, some "Could not visualize audio: sample may be silent."⟩)
    ∧ ((∃ d ∈ dataArray, d ≠ 0) →
      captureResult (some buffer) dataArray =
        ⟨dataArray, buffer.sampleRate, none⟩) := by
  constructor
  · intro h
    have hall : dataArray.any (fun d => decide (0 < d)) = false := by
      rw [List.any_eq_false]
      intro d hd
      simp [h d hd]
    simp [captureResult, hall, silentMsg]
  · rintro ⟨d, hd, hdnz⟩
    have hsome : dataArray.any (fun d => decide (0 < d)) = true :=
      List.any_eq_true.mpr ⟨d, hd, by simpa using Nat.pos_of_ne_zero hdnz⟩
    simp [captureResult, hsome]

/-- Witness for C4 at concrete inputs: all-zero data gives the silence
snapshot, data containing 7 passes through with the sample rate. -/
theorem silence_and_success_snapshot_witness :
    captureResult (some ⟨44100, 2⟩) [0, 0] =
      ⟨[], 0, some "Could not visualize audio: sample may be silent."⟩
    ∧ captureResult (some ⟨44100, 2⟩) [0, 7] = ⟨[0, 7], 44100, none⟩ :=
  ⟨(silence_and_success_snapshot ⟨44100, 2⟩ [0, 0]).1 (by decide),
   (silence_and_success_snapshot ⟨44100, 2⟩ [0, 7]).2 ⟨7, by decide, by decide⟩⟩

/-- C6: with nonpositive computed plot width or height, drawChart produces
the empty layout — no bars, no placeholder, no failure. -/
theorem degenerate_geometry_empty (eqSettings : List EQSetting)
    (dataArray : List ℕ) (sampleRate : ℚ) (message : Option String)
    (containerWidth containerHeight : ℚ)
    (h : containerWidth - marginLeft - marginRight ≤ 0 ∨
      containerHeight - marginTop - marginBottom ≤ 0) :
    drawChart eqSettings dataArray sampleRate message
      containerWidth containerHeight = .empty := by
  rw [drawChart]
  exact if_pos h

/-- Witness for C6 at container size (0, 160): plot width is -70. -/
theorem degenerate_geometry_empty_witness :
    drawChart [] [5, 9] 44100 none 0 160 = .empty :=
  degenerate_geometry_empty [] [5, 9] 44100 none 0 160
    (Or.inl (by norm_num [marginLeft, marginRight]))

/-- C9: drawChart is a pure function of the snapshot triple, the
adjustment points, and the container size: equal inputs give equal
layouts. -/
theorem layout_deterministic (e₁ e₂ : List EQSetting) (l₁ l₂ : List ℕ)
    (R₁ R₂ : ℚ) (m₁ m₂ : Option String) (cw₁ cw₂ ch₁ ch₂ : ℚ)
    (he : e₁ = e₂) (hl : l₁ = l₂) (hR : R₁ = R₂) (hm : m₁ = m₂)
    (hcw : cw₁ = cw₂) (hch : ch₁ = ch₂) :
    drawChart e₁ l₁ R₁ m₁ cw₁ ch₁ = drawChart e₂ l₂ R₂ m₂ cw₂ ch₂ := by
  subst he hl hR hm hcw hch
  rfl

/-- Witness for C9: two identical concrete invocations agree. -/
theorem layout_deterministic_witness :
    drawChart [] [5, 9] 44100 none 200 200 =
      drawChart [] [5, 9] 44100 none 200 200 :=
  layout_deterministic [] [] [5, 9] [5, 9] 44100 44100 none none
    200 200 200 200 rfl rfl rfl rfl rfl rfl

/-- C1: for a bin frequency f, the bar fill is decided by the FIRST
adjustment point p of the sequence with |log10 p.frequency - log10 f| <
0.1 — boost color when p.gain > 0, cut color when p.gain ≤ 0 — and is the
neutral color when no point qualifies; earlier points win ties. -/
theorem bar_color_first_match (eqSettings : List EQSetting) (f : ℚ)
    (hf : 0 < f) (hpos : ∀ p ∈ eqSettings, 0 < p.frequency) :
    (∀ (l₁ : List EQSetting) (p : EQSetting) (l₂ : List EQSetting),
      eqSettings = l₁ ++ p :: l₂ →
      (∀ q ∈ l₁, ¬ |Real.logb 10 (q.frequency : ℝ) - Real.logb 10 (f : ℝ)| < 0.1) →
      |Real.logb 10 (p.frequency : ℝ) - Real.logb 10 (f : ℝ)| < 0.1 →
      barFill eqSettings f = if p.gain > 0 then boostColor else cutColor)
    ∧ ((∀ p ∈ eqSettings,
        ¬ |Real.logb 10 (p.frequency : ℝ) - Real.logb 10 (f : ℝ)| < 0.1) →
      barFill eqSettings f = neutralColor) := by
  constructor
  · intro l₁ p l₂ heq hnone hp
    have hmemp : p ∈ eqSettings := heq ▸ List.mem_append_right l₁ (by simp)
    have hptol : withinTol p.frequency f = true :=
      (withinTol_iff_logb p.frequency f (hpos p hmemp) hf).mpr hp
    have hfalse : ∀ q ∈ l₁, withinTol q.frequency f = false := by
      intro q hq
      cases hqt : withinTol q.frequency f with
      | false => rfl
      | true =>
          have hmemq : q ∈ eqSettings := heq ▸ List.mem_append_left _ hq
          exact absurd
            ((withinTol_iff_logb q.frequency f (hpos q hmemq) hf).mp hqt)
            (hnone q hq)
    rw [barFill, heq, find?_append_cons _ _ _ _ hfalse hptol]
  · intro hnone
    have : List.find? (fun eq => withinTol eq.frequency f) eqSettings = none := by
      rw [List.find?_eq_none]
      intro q hq hqt
      exact hnone q hq ((withinTol_iff_logb q.frequency f (hpos q hq) hf).mp hqt)
    rw [barFill, this]

/-- Witness for C1 on the spec example points (1000, +3), (5000, -2): a
bin at 1005 Hz is boost, one at 5010 Hz is cut, one at 50 Hz neutral. -/
theorem bar_color_first_match_witness :
    barFill [⟨1000, 3⟩, ⟨5000, -2⟩] 1005 = boostColor
    ∧ barFill [⟨1000, 3⟩, ⟨5000, -2⟩] 5010 = cutColor
    ∧ barFill [⟨1000, 3⟩, ⟨5000, -2⟩] 50 = neutralColor := by
  have hpos : ∀ p ∈ ([⟨1000, 3⟩, ⟨5000, -2⟩] : List EQSetting),
      0 < p.frequency := by
    intro p hp
    rcases List.mem_cons.mp hp with rfl | hp
    · norm_num
    · rcases List.mem_singleton.mp hp with rfl
      norm_num
  refine ⟨?_, ?_, ?_⟩
  · have h := (bar_color_first_match [⟨1000, 3⟩, ⟨5000, -2⟩] 1005
      (by norm_num) hpos).1 [] ⟨1000, 3⟩ [⟨5000, -2⟩] rfl (by simp)
      ((withinTol_iff_logb 1000 1005 (by norm_num) (by norm_num)).mp
        (by norm_num [withinTol]))
    rw [h]
    norm_num
  · have h := (bar_color_first_match [⟨1000, 3⟩, ⟨5000, -2⟩] 5010
      (by norm_num) hpos).1 [⟨1000, 3⟩] ⟨5000, -2⟩ [] rfl
      (by
        intro q hq habs
        rcases List.mem_singleton.mp hq with rfl
        have := (withinTol_iff_logb 1000 5010 (by norm_num) (by norm_num)).mpr habs
        norm_num [withinTol] at this)
      ((withinTol_iff_logb 5000 5010 (by norm_num) (by norm_num)).mp
        (by norm_num [withinTol]))
    rw [h]
    norm_num
  · have h := (bar_color_first_match [⟨1000, 3⟩, ⟨5000, -2⟩] 50
      (by norm_num) hpos).2
      (by
        intro p hp habs
        rcases List.mem_cons.mp hp with rfl | hp
        · have := (withinTol_iff_logb 1000 50 (by norm_num) (by norm_num)).mpr habs
          norm_num [withinTol] at this
        · rcases List.mem_singleton.mp hp with rfl
          have := (withinTol_iff_logb 5000 50 (by norm_num) (by norm_num)).mpr habs
          norm_num [withinTol] at this)
    exact h

/-- C2: each bin derived from a non-empty magnitude list with positive
sample rate has center frequency index * rate / (2 * length); exactly the
bins with frequency in [20, 20000] are kept, so the first kept frequency
is at least 20 and the last at most 20000. -/
theorem bin_frequency_formula_and_range (dataArray : List ℕ)
    (sampleRate : ℚ) (hl : dataArray ≠ []) (hR : 0 < sampleRate) :
    (∀ b ∈ binData dataArray sampleRate,
      (∃ i : Fin dataArray.length,
        b.frequency = (i.1 : ℚ) * sampleRate / (2 * dataArray.length)
        ∧ b.amplitude = dataArray.get i)
      ∧ 20 ≤ b.frequency ∧ b.frequency ≤ 20000)
    ∧ (∀ i : Fin dataArray.length,
      20 ≤ (i.1 : ℚ) * sampleRate / (2 * dataArray.length) →
      (i.1 : ℚ) * sampleRate / (2 * dataArray.length) ≤ 20000 →
      (⟨(i.1 : ℚ) * sampleRate / (2 * dataArray.length), dataArray.get i⟩ :
        BinDatum) ∈ binData dataArray sampleRate)
    ∧ (∀ b ∈ (binData dataArray sampleRate).head?, 20 ≤ b.frequency)
    ∧ (∀ b ∈ (binData dataArray sampleRate).getLast?, b.frequency ≤ 20000) := by
  refine ⟨?_, ?_, ?_, ?_⟩
  · intro b hb
    obtain ⟨⟨i, rfl⟩, hrange⟩ := (mem_binData_iff dataArray sampleRate b).mp hb
    exact ⟨⟨i, rfl, rfl⟩, hrange⟩
  · intro i h20 h2k
    exact (mem_binData_iff dataArray sampleRate _).mpr ⟨⟨i, rfl⟩, h20, h2k⟩
  · intro b hb
    exact ((mem_binData_iff dataArray sampleRate b).mp
      (List.mem_of_mem_head? hb)).2.1
  · intro b hb
    obtain ⟨hne, rfl⟩ := List.mem_getLast?_eq_getLast hb
    exact ((mem_binData_iff dataArray sampleRate _).mp
      (List.getLast_mem hne)).2.2

/-- Witness for C2: for magnitudes [5, 9] at 44100 Hz, index 1 has
frequency 1 * 44100 / 4 = 11025 and is kept. -/
theorem bin_frequency_formula_and_range_witness :
    (⟨11025, 9⟩ : BinDatum) ∈ binData [5, 9] 44100 := by
  have h := (bin_frequency_formula_and_range [5, 9] 44100 (by simp)
    (by norm_num)).2.1 ⟨1, by norm_num⟩ (by norm_num) (by norm_num)
  norm_num at h
  convert h using 2

/-- C5 counterexample: with container size (141/2, 160) the plot width is
1/2 and one bin survives the filter, so the produced bar has width 1/2,
strictly below one pixel — the claimed floor at 1 pixel does not hold. -/
theorem bar_width_below_one_pixel :
    ∃ b ∈ (drawChart [] [5, 9] 44100 none (141/2) 160).bars, b.width < 1 := by
  have h : (drawChart [] [5, 9] 44100 none (141/2) 160).bars =
      [⟨11025, 9, 1/2, 1640/17, 60/17, neutralColor⟩] := by
    norm_num [drawChart, LayoutOutput.bars, binData, List.enum, List.enumFrom,
      List.filter, marginLeft, marginRight, marginTop, marginBottom,
      linY, barFill, List.find?, withinTol]
  rw [h]
  exact ⟨_, List.mem_singleton.mpr rfl, by norm_num⟩

/-- C5 amended: every produced bar has width plotWidth / filteredBinCount
when that quotient is positive (always the case when bars exist) and the
fallback 1 otherwise; the width is always positive but can be below one
pixel. -/
theorem bar_width_formula (eqSettings : List EQSetting) (dataArray : List ℕ)
    (sampleRate : ℚ) (message : Option String)
    (containerWidth containerHeight : ℚ) :
    ∀ b ∈ (drawChart eqSettings dataArray sampleRate message
        containerWidth containerHeight).bars,
      b.width =
        (if (containerWidth - marginLeft - marginRight) /
            ((binData dataArray sampleRate).length : ℚ) > 0
         then (containerWidth - marginLeft - marginRight) /
            ((binData dataArray sampleRate).length : ℚ)
         else 1)
      ∧ 0 < b.width := by
  intro b hb
  rw [drawChart] at hb
  by_cases h1 : containerWidth - marginLeft - marginRight ≤ 0 ∨
      containerHeight - marginTop - marginBottom ≤ 0
  · rw [if_pos h1] at hb
    simp [LayoutOutput.bars] at hb
  · rw [if_neg h1] at hb
    by_cases h2 : dataArray.length = 0 ∨ sampleRate = 0
    · rw [if_pos h2] at hb
      simp [LayoutOutput.bars] at hb
    · rw [if_neg h2] at hb
      simp only [LayoutOutput.bars, List.mem_map] at hb
      obtain ⟨d, hd, rfl⟩ := hb
      refine ⟨rfl, ?_⟩
      dsimp only
      split
      · assumption
      · norm_num

/-- Witness for C5 amended: in a 200 x 200 container with one surviving
bin, the bar width is the quotient 130 / 1 = 130 and is positive. -/
theorem bar_width_formula_witness :
    (Bar.mk 11025 9 130 (2296/17) (84/17) neutralColor).width =
        (if (200 - marginLeft - marginRight) /
            ((binData [5, 9] 44100).length : ℚ) > 0
         then (200 - marginLeft - marginRight) /
            ((binData [5, 9] 44100).length : ℚ)
         else 1)
      ∧ 0 < (Bar.mk 11025 9 130 (2296/17) (84/17) neutralColor).width := by
  have heval : (drawChart [] [5, 9] 44100 none 200 200).bars =
      [⟨11025, 9, 130, 2296/17, 84/17, neutralColor⟩] := by
    norm_num [drawChart, LayoutOutput.bars, binData, List.enum, List.enumFrom,
      List.filter, marginLeft, marginRight, marginTop, marginBottom,
      linY, barFill, List.find?, withinTol]
  exact bar_width_formula [] [5, 9] 44100 none 200 200 _
    (heval ▸ List.mem_singleton.mpr rfl)

/-- C10: when every derived bin frequency falls outside [20, 20000], the
bin list is empty and the layout has zero bars, with no failure from the
division of the plot width by the zero bin count. -/
theorem all_bins_filtered_out_safe (eqSettings : List EQSetting)
    (dataArray : List ℕ) (sampleRate : ℚ) (message : Option String)
    (containerWidth containerHeight : ℚ)
    (hl : dataArray ≠ []) (hR : 0 < sampleRate)
    (hout : ∀ i : Fin dataArray.length,
      (i.1 : ℚ) * sampleRate / (2 * dataArray.length) < 20 ∨
      20000 < (i.1 : ℚ) * sampleRate / (2 * dataArray.length)) :
    binData dataArray sampleRate = []
    ∧ (drawChart eqSettings dataArray sampleRate message
        containerWidth containerHeight).bars = [] := by
  have hbin : binData dataArray sampleRate = [] := by
    rcases hb : binData dataArray sampleRate with _ | ⟨b, bs⟩
    · rfl
    · exfalso
      have hmem : b ∈ binData dataArray sampleRate := by rw [hb]; simp
      obtain ⟨⟨i, rfl⟩, h20, h2k⟩ :=
        (mem_binData_iff dataArray sampleRate b).mp hmem
      rcases hout i with h | h
      · exact absurd h20 (not_le.mpr h)
      · exact absurd h2k (not_le.mpr h)
  refine ⟨hbin, ?_⟩
  rw [drawChart]
  by_cases h1 : containerWidth - marginLeft - marginRight ≤ 0 ∨
      containerHeight - marginTop - marginBottom ≤ 0
  · rw [if_pos h1]
    rfl
  · rw [if_neg h1]
    by_cases h2 : dataArray.length = 0 ∨ sampleRate = 0
    · rw [if_pos h2]
      rfl
    · rw [if_neg h2]
      simp [LayoutOutput.bars, hbin]

/-- Witness for C10: magnitudes [1, 2] at 50 Hz sample rate give bin
frequencies 0 and 12.5, both below 20 Hz, so no bar is drawn. -/
theorem all_bins_filtered_out_safe_witness :
    binData [1, 2] 50 = []
    ∧ (drawChart [] [1, 2] 50 none 200 200).bars = [] :=
  all_bins_filtered_out_safe [] [1, 2] 50 none 200 200 (by simp)
    (by norm_num)
    (by intro i; fin_cases i <;> norm_num)

/-- C7 counterexample: in the run where the caller disposes while the
decode is pending and the decode then fails, close is invoked twice: the
cleanup closes the open context, then the catch block of lines 28-33
calls close again, guarding only on the variable being non-null and not
on the context being already closed. -/
theorem double_close_on_early_dispose_decode_fail :
    (finalState ⟨44100, 2⟩ [5] ⟨.fail, some 0⟩).closeCalls = 2 := rfl

/-- C7 amended: in every complete run the context ends closed, having
transitioned to closed exactly once, and close is invoked exactly once —
except in the single interleaving where disposal precedes a decode
failure, where the catch block invokes close a second time on the already
closed context. -/
theorem close_exactly_once_except_dispose_decode_fail
    (buffer : AudioBuffer) (dataArray : List ℕ) (r : Run) :
    (finalState buffer dataArray r).ctx = some true
    ∧ ((finalState buffer dataArray r).closeCalls = 1 ∨
      (r = ⟨.fail, some 0⟩ ∧
        (finalState buffer dataArray r).closeCalls = 2)) := by
  obtain ⟨o, d⟩ := r
  cases o <;> rcases d with _ | i
  · simp [finalState, Run.events, step, initState]
  · fin_cases i <;> simp [finalState, Run.events, step, initState]
  · simp [finalState, Run.events, step, initState]
  · fin_cases i <;> simp [finalState, Run.events, step, initState]

/-- C8: when the timer callback finds the context variable null or the
context already closed, it changes nothing: no snapshot read, no stop, no
close, no draw, no error. -/
theorem timer_noop_after_close (buffer : AudioBuffer) (dataArray : List ℕ)
    (s : CaptureState) (h : s.ctx = none ∨ s.ctx = some true) :
    step buffer dataArray s .timerFire = s := by
  rcases h with h | h <;> rw [step] <;> rw [h]

/-- Witness for C8: the timer step on a closed-context state is the
identity. -/
theorem timer_noop_after_close_witness :
    step ⟨44100, 2⟩ [5] ⟨some true, 1, 0, 0, []⟩ .timerFire =
      ⟨some true, 1, 0, 0, []⟩ :=
  timer_noop_after_close ⟨44100, 2⟩ [5] ⟨some true, 1, 0, 0, []⟩
    (Or.inr rfl)

end EQViz
